import Mathlib

/-!
Shallow embedding of the optcg eBay sold-listings scraper
(src/scraper: parser.py, ebay_client.py, rate_limiter.py, sold_listings.py)
and proofs of the specified properties.

Modeling conventions: Python strings are modeled as Lean strings and the
string operations used by the source (substring test, lower, strip, regex
character-class filters) are implemented over explicit character lists;
machine floats are modeled as exact rationals; timestamps as natural
numbers; exceptions as Except / Option values; the network is an oracle
supplying the response of each attempt.
-/

/-! ## String helpers (Python substring, lower, strip) -/

/-- Does the second list start with the first one?  Used to implement the
Python substring test and startswith. -/
def startsWithSeq : List Char → List Char → Bool
  | [], _ => true
  | _ :: _, [] => false
  | a :: as, b :: bs => a == b && startsWithSeq as bs

/-- Python needle-in-haystack substring test over character lists. -/
def containsSeq (needle : List Char) : List Char → Bool
  | [] => needle.isEmpty
  | c :: t => startsWithSeq needle (c :: t) || containsSeq needle t

/-- Characters of a string, lower-cased (Python str.lower on the ASCII
range used by the heuristics). -/
def lowerData (s : String) : List Char :=
  s.data.map Char.toLower

/-- Python str.strip: remove leading and trailing whitespace. -/
def stripChars (cs : List Char) : List Char :=
  ((cs.dropWhile Char.isWhitespace).reverse.dropWhile Char.isWhitespace).reverse

/-- The character class [\d.] of the source regexes. -/
def digitOrDot (c : Char) : Bool :=
  c.isDigit || c == '.'

/-- Numeric value of a digit run (leading zeros allowed). -/
def digitsVal (ds : List Char) : Nat :=
  ds.foldl (fun a c => 10 * a + (c.toNat - 48)) 0

/-- Python float(s) restricted to strings made of digits and dots, as
produced by the character-class filters of the source: defined exactly when
the string has at least one digit and at most one dot, in which case the
value is integer part plus decimal fraction. -/
def pyFloat (cs : List Char) : Option ℚ :=
  if cs.all digitOrDot ∧ cs.any Char.isDigit ∧ cs.count '.' ≤ 1 then
    some ((digitsVal (cs.filter Char.isDigit) : ℚ) /
      (10 : ℚ) ^ ((cs.dropWhile (fun c => c != '.')).drop 1).length)
  else none

/-! ## EbayParser (src/scraper/parser.py) -/

/-- EbayParser._parse_price: empty text is None; otherwise strip every
character outside [\d.] and apply float, None on failure. -/
def parsePrice (s : String) : Option ℚ :=
  if s = "" then none
  else pyFloat (s.data.filter digitOrDot)

/-- First match of the regex \$?([\d.]+): the first maximal run of digits
and dots, if any. -/
def firstNumRun (cs : List Char) : Option (List Char) :=
  let rest := cs.dropWhile (fun c => !digitOrDot c)
  if rest.isEmpty then none else some (rest.takeWhile digitOrDot)

/-- EbayParser._parse_shipping: empty is None; a text containing "free"
(case-insensitive) is 0.0; otherwise the first numeric token parsed as a
float, None when absent or unparsable. -/
def parseShipping (s : String) : Option ℚ :=
  if s = "" then none
  else if containsSeq "free".data (lowerData s) then some 0
  else match firstNumRun s.data with
    | none => none
    | some run => pyFloat run

/-- The substitution re.sub("^Sold\\s+", "", s, IGNORECASE): drop a leading
case-insensitive "Sold" marker followed by at least one whitespace. -/
def dropSoldMarker (s : String) : String :=
  match s.data with
  | c1 :: c2 :: c3 :: c4 :: c5 :: rest =>
    if [c1, c2, c3, c4].map Char.toLower == "sold".data && c5.isWhitespace then
      ⟨(c5 :: rest).dropWhile Char.isWhitespace⟩
    else s
  | _ => s

/-- EbayParser._parse_sold_date strips the leading "Sold" marker and then
tries datetime.strptime over four fixed date formats, yielding None when no
format matches.  No verified property depends on the parsed calendar value,
so the model keeps the stripped text itself as the parsed value; only the
marker stripping is modeled precisely. -/
def parseSoldDateText (s : String) : Option String :=
  some ⟨stripChars (dropSoldMarker s).data⟩

/-- Remove from the first case-insensitive occurrence of the marker to the
end of the text (the substitution re.sub("marker.*$", "", s, IGNORECASE) on
the single-line texts produced by get_text). -/
def cutFromMarkerCI (marker : List Char) : List Char → List Char
  | [] => []
  | c :: t =>
    if startsWithSeq marker ((c :: t).map Char.toLower) then []
    else c :: cutFromMarkerCI marker t

/-- Drop a leading case-insensitive "New Listing" marker. -/
def dropNewListingCI (cs : List Char) : List Char :=
  if startsWithSeq "new listing".data (cs.map Char.toLower) then cs.drop 11
  else cs

/-- EbayParser._clean_title: remove the trailing "Opens in a new window..."
boilerplate, remove a leading "New Listing" marker, strip whitespace. -/
def cleanTitle (s : String) : String :=
  ⟨stripChars (dropNewListingCI (cutFromMarkerCI "opens in a new window".data s.data))⟩

/-- A sold listing record (parser.py SoldListing).  The sold date field
holds the stripped date text, see parseSoldDateText. -/
structure SoldListing where
  listing_id : String
  title : String
  price : ℚ
  shipping_price : Option ℚ
  sold_date : Option String
  listing_url : String
  scraped_at : Nat
deriving DecidableEq, Repr

/-- One candidate li.s-card fragment of a results page, abstracted at the
level at which _parse_card_item reads it: the data-listingid attribute, the
text of the title element, the href of the link element (none when the
element is absent), the item text nodes, the text of the price element, and
the texts of the attribute rows.  BeautifulSoup elements are modeled by
their extracted texts. -/
structure ItemFragment where
  listingId : Option String
  titleText : Option String
  linkHref : Option String
  soldTexts : List String
  priceText : Option String
  attrRows : List String
deriving DecidableEq, Repr

/-- The loop over item.find_all(string contains "Sold"): the first text
node containing "Sold" whose stripped form starts with "Sold". -/
def soldTextOf (texts : List String) : Option String :=
  ((texts.filter (fun s => containsSeq "Sold".data s.data)).map
      (fun s => (⟨stripChars s.data⟩ : String))).find?
    (fun s => startsWithSeq "Sold".data s.data)

/-- The loop over the s-card attribute rows: every row whose lower-cased
text mentions delivery or shipping overwrites the shipping value with
_parse_shipping of that row (an unparsable later row overwrites an earlier
parsed one, as in the source). -/
def shippingFromRows (rows : List String) : Option ℚ :=
  rows.foldl
    (fun acc row =>
      if containsSeq "delivery".data (lowerData row) ||
          containsSeq "shipping".data (lowerData row) then
        parseShipping row
      else acc)
    none

/-- EbayParser._parse_card_item, in source order: missing or empty
listing id, missing title element, empty or placeholder cleaned title,
empty url, missing sold marker, or unparsable price each yield None;
otherwise the record is assembled. -/
def parseCardItem (item : ItemFragment) (scrapedAt : Nat) : Option SoldListing :=
  if item.listingId.getD "" = "" then none
  else match item.titleText with
    | none => none
    | some rawTitle =>
      if cleanTitle rawTitle = "" ∨
          lowerData (cleanTitle rawTitle) == "shop on ebay".data then none
      else if item.linkHref.getD "" = "" then none
      else match soldTextOf item.soldTexts with
        | none => none
        | some soldText =>
          match parsePrice (item.priceText.getD "") with
          | none => none
          | some price =>
            some { listing_id := item.listingId.getD ""
                   title := cleanTitle rawTitle
                   price := price
                   shipping_price := shippingFromRows item.attrRows
                   sold_date := parseSoldDateText soldText
                   listing_url := item.linkHref.getD ""
                   scraped_at := scrapedAt }

/-- EbayParser.parse_listings at the fragment level: one timestamp taken at
parse time is shared by every record of the call, each fragment is parsed
independently, and fragments that fail to parse (None or an exception,
absorbed by the per-item try) are skipped. -/
def parseListings (items : List ItemFragment) (now : Nat) : List SoldListing :=
  items.filterMap (fun it => parseCardItem it now)

/-! ## EbayClient (src/scraper/ebay_client.py) -/

/-- EbayClient._is_challenge_page: the response is classified as a
challenge page when the final url contains the challenge path, the body
mentions the interruption or captcha keywords (case-insensitive), or the
body is anomalously short while lacking both expected content markers. -/
def isChallengePage (html url : String) : Bool :=
  containsSeq "splashui/challenge".data url.data ||
  containsSeq "pardon our interruption".data (lowerData html) ||
  containsSeq "captcha".data (lowerData html) ||
  (decide (html.length < 10000) && !containsSeq "s-card".data html.data &&
    !containsSeq "srp-results".data html.data)

/-- The error finally raised by fetch_page: ChallengePageError or an
httpx.HTTPError (transport errors are distinguished by an abstract tag). -/
inductive FetchError where
  | challenge
  | transport (tag : Nat)
deriving DecidableEq, Repr

/-- What the network yields on one attempt of the fetch loop: a 429
rate-limit response, a transport-level httpx.HTTPError (raised by the
request or by raise_for_status), or a 2xx body with its final url. -/
inductive AttemptOutcome where
  | rateLimited
  | httpError (tag : Nat)
  | success (html : String) (finalUrl : String)
deriving DecidableEq, Repr

/-- The retry loop of EbayClient.fetch_page over the per-attempt outcomes
(one list entry per loop iteration, length max_retries), threading the
last_error variable: a 429 sleeps and records nothing, an HTTPError is
recorded, a challenge-classified body is recorded as ChallengePageError,
any other body is returned at once; when the loop ends, the last recorded
error is raised, or a final ChallengePageError when none was recorded. -/
def fetchGo : List AttemptOutcome → Option FetchError → Except FetchError String
  | [], some e => .error e
  | [], none => .error .challenge
  | a :: rest, acc =>
    match a with
    | .rateLimited => fetchGo rest acc
    | .httpError tag => fetchGo rest (some (.transport tag))
    | .success html finalUrl =>
      if isChallengePage html finalUrl then fetchGo rest (some .challenge)
      else .ok html

/-- EbayClient.fetch_page on a given sequence of attempt outcomes. -/
def fetchPage (attempts : List AttemptOutcome) : Except FetchError String :=
  fetchGo attempts none

/-- The error an attempt stores into last_error, if any. -/
def recordOf : AttemptOutcome → Option FetchError
  | .rateLimited => none
  | .httpError tag => some (.transport tag)
  | .success html finalUrl =>
    if isChallengePage html finalUrl then some .challenge else none

/-- The last recorded error of a sequence of attempts. -/
def lastRecorded : List AttemptOutcome → Option FetchError
  | [] => none
  | a :: rest =>
    match lastRecorded rest with
    | some e => some e
    | none => recordOf a

/-! ## RateLimiter (src/scraper/rate_limiter.py) -/

/-- RateLimiter._refill: add elapsed monotonic time times the configured
rate, capped at the burst size. -/
def refillTokens (burst rate tokens elapsed : ℚ) : ℚ :=
  min burst (tokens + elapsed * rate)

/-- One iteration of the acquire / acquire_sync loop: refill from the
elapsed time, then consume exactly one token when at least one is
available (otherwise the iteration only sleeps). -/
def acquireStep (burst rate tokens elapsed : ℚ) : ℚ :=
  let t := refillTokens burst rate tokens elapsed
  if 1 ≤ t then t - 1 else t

/-- Token count after a sequence of acquire-loop iterations, one elapsed
duration per iteration. -/
def runSteps (burst rate : ℚ) : List ℚ → ℚ → ℚ
  | [], t => t
  | e :: es, t => runSteps burst rate es (acquireStep burst rate t e)

/-! ## SoldListingsScraper (src/scraper/sold_listings.py) -/

/-- What one iteration of the page loop observes for its page: the parsed
fragments of a fetched body together with the has_next_page signal and the
utcnow value at parse time, a ChallengePageError raised by the fetch after
exhausting its retries, or any other exception (transport errors and the
like, absorbed by the generic handler). -/
inductive PageResult where
  | page (items : List ItemFragment) (hasNext : Bool) (parseTime : Nat)
  | challenge
  | error

/-- The per-page dedup loop of SoldListingsScraper.scrape: keep each
listing whose id is not yet in the seen set, adding kept ids to the set. -/
def dedupPage : List SoldListing → List String → List SoldListing × List String
  | [], seen => ([], seen)
  | l :: rest, seen =>
    if l.listing_id ∈ seen then dedupPage rest seen
    else
      let r := dedupPage rest (l.listing_id :: seen)
      (l :: r.1, r.2)

/-- The Python condition `max_listings and len(all_listings) >= max_listings`:
None and 0 are falsy, so the cap is checked only for a nonzero limit. -/
def capHit (maxListings : Option Nat) (n : Nat) : Bool :=
  match maxListings with
  | none => false
  | some m => decide (m ≠ 0) && decide (m ≤ n)

/-- The page loop of SoldListingsScraper.scrape over the remaining page
numbers: a challenge error breaks the loop at once, any other error skips
to the next page, and a fetched page is parsed, deduplicated and appended,
after which the listings cap (truncate and stop) and the has-next-page
signal (stop) are checked in that order.  Returns the accumulated listings
and the number of pages scraped. -/
def scrapeLoop (env : Nat → PageResult) (maxListings : Option Nat) :
    List Nat → List SoldListing → List String → Nat → List SoldListing × Nat
  | [], all, _, pages => (all, pages)
  | p :: rest, all, seen, pages =>
    match env p with
    | .challenge => (all, pages)
    | .error => scrapeLoop env maxListings rest all seen pages
    | .page items hasNext parseTime =>
      let r := dedupPage (parseListings items parseTime) seen
      let all2 := all ++ r.1
      if capHit maxListings all2.length then
        (all2.take (maxListings.getD 0), pages + 1)
      else if hasNext then scrapeLoop env maxListings rest all2 r.2 (pages + 1)
      else (all2, pages + 1)

/-- Result of a scraping operation (sold_listings.py ScrapeResult). -/
structure ScrapeResult where
  query : String
  total_listings : Nat
  pages_scraped : Nat
  listings : List SoldListing
  scraped_at : Nat
deriving DecidableEq, Repr

/-- SoldListingsScraper.scrape: capture the run timestamp, loop over pages
1..max_pages with empty accumulators, and assemble the result. -/
def scrape (query : String) (env : Nat → PageResult) (maxPages : Nat)
    (maxListings : Option Nat) (startTime : Nat) : ScrapeResult :=
  let r := scrapeLoop env maxListings (List.range' 1 maxPages) [] [] 0
  { query := query
    total_listings := r.1.length
    pages_scraped := r.2
    listings := r.1
    scraped_at := startTime }

/-- scrapeLoop instrumented with the stream of all records encountered on
processed pages, in page order and document order (a proof-side trace: the
returned pair is proved equal to scrapeLoop's). -/
def scrapeLoopTrace (env : Nat → PageResult) (maxListings : Option Nat) :
    List Nat → List SoldListing → List String → Nat → List SoldListing →
      (List SoldListing × Nat) × List SoldListing
  | [], all, _, pages, enc => ((all, pages), enc)
  | p :: rest, all, seen, pages, enc =>
    match env p with
    | .challenge => ((all, pages), enc)
    | .error => scrapeLoopTrace env maxListings rest all seen pages enc
    | .page items hasNext parseTime =>
      let stamped := parseListings items parseTime
      let r := dedupPage stamped seen
      let all2 := all ++ r.1
      let enc2 := enc ++ stamped
      if capHit maxListings all2.length then
        ((all2.take (maxListings.getD 0), pages + 1), enc2)
      else if hasNext then
        scrapeLoopTrace env maxListings rest all2 r.2 (pages + 1) enc2
      else ((all2, pages + 1), enc2)

/-- The stream of records a scrape run encounters, before deduplication. -/
def scrapeTrace (env : Nat → PageResult) (maxPages : Nat)
    (maxListings : Option Nat) : List SoldListing :=
  (scrapeLoopTrace env maxListings (List.range' 1 maxPages) [] [] 0 []).2

/-! ## Concrete fixtures used by witnesses and counterexamples -/

/-- A well-formed item fragment with the given listing id. -/
def mkFrag (id : String) : ItemFragment :=
  { listingId := some id
    titleText := some "Card"
    linkHref := some "u"
    soldTexts := ["Sold Jan 15, 2024"]
    priceText := some "$2"
    attrRows := [] }

/-- A page of 30 unique well-formed fragments with ids tag0 .. tag29. -/
def frag30 (tag : String) : List ItemFragment :=
  (List.range 30).map (fun n => mkFrag (tag ++ toString n))

/-- An environment in which every fetch exhausts its retries on
challenge-classified bodies. -/
def blockedEnv : Nat → PageResult := fun _ => PageResult.challenge

/-- Three pages of 30 unique items each, further pages failing. -/
def capEnv : Nat → PageResult := fun p =>
  if p = 1 then .page (frag30 "a") true 0
  else if p = 2 then .page (frag30 "b") true 0
  else if p = 3 then .page (frag30 "c") true 0
  else .error

/-- Two pages parsed at distinct times 10 and 20. -/
def tsEnv : Nat → PageResult := fun p =>
  if p = 1 then .page [mkFrag "a0"] true 10
  else .page [mkFrag "b0"] true 20

/-- Two pages sharing the listing id a0, parsed at times 10 and 20. -/
def dupEnv : Nat → PageResult := fun p =>
  if p = 1 then .page [mkFrag "a0"] true 10
  else .page [mkFrag "a0", mkFrag "b0"] true 20

/-- A fragment with no listing id attribute. -/
def noIdFrag : ItemFragment :=
  { mkFrag "x" with listingId := none }

/-- A fragment whose price text has no parsable number. -/
def noPriceFrag : ItemFragment :=
  { mkFrag "x" with priceText := some "N/A" }

/-- Default record used as the fallback of List.getD in witnesses. -/
def fallbackRec : SoldListing :=
  { listing_id := ""
    title := ""
    price := 0
    shipping_price := none
    sold_date := none
    listing_url := ""
    scraped_at := 0 }

theorem dedupPage_seen_iff (L : List SoldListing) (seen : List String) (s : String) :
    s ∈ (dedupPage L seen).2 ↔
      s ∈ seen ∨ s ∈ (dedupPage L seen).1.map SoldListing.listing_id := by
  induction L generalizing seen with
  | nil => simp [dedupPage]
  | cons h t ih =>
    by_cases hm : h.listing_id ∈ seen
    · simp only [dedupPage, if_pos hm]
      rw [ih]
    · simp only [dedupPage, if_neg hm]
      rw [ih]
      simp only [List.map_cons, List.mem_cons]
      tauto

theorem dedupPage_new_not_seen (L : List SoldListing) (seen : List String) :
    ∀ x ∈ (dedupPage L seen).1, x.listing_id ∉ seen := by
  induction L generalizing seen with
  | nil => simp [dedupPage]
  | cons h t ih =>
    by_cases hm : h.listing_id ∈ seen
    · simp only [dedupPage, if_pos hm]
      exact ih seen
    · simp only [dedupPage, if_neg hm]
      intro x hx
      rcases List.mem_cons.1 hx with rfl | hx
      · exact hm
      · intro hs
        exact ih (h.listing_id :: seen) x hx (List.mem_cons_of_mem _ hs)

theorem dedupPage_nodup (L : List SoldListing) (seen : List String) :
    ((dedupPage L seen).1.map SoldListing.listing_id).Nodup := by
  induction L generalizing seen with
  | nil => simp [dedupPage]
  | cons h t ih =>
    by_cases hm : h.listing_id ∈ seen
    · simp only [dedupPage, if_pos hm]
      exact ih seen
    · simp only [dedupPage, if_neg hm, List.map_cons, List.nodup_cons]
      refine ⟨fun hmem => ?_, ih _⟩
      obtain ⟨x, hx, hid⟩ := List.mem_map.1 hmem
      exact dedupPage_new_not_seen t (h.listing_id :: seen) x hx
        (hid ▸ List.mem_cons_self _ _)

theorem dedupPage_mem_seen (L : List SoldListing) (seen : List String) :
    ∀ x ∈ L, x.listing_id ∈ (dedupPage L seen).2 := by
  induction L generalizing seen with
  | nil => simp
  | cons h t ih =>
    intro x hx
    by_cases hm : h.listing_id ∈ seen
    · simp only [dedupPage, if_pos hm]
      rcases List.mem_cons.1 hx with rfl | hx
      · rw [dedupPage_seen_iff]
        exact Or.inl hm
      · exact ih seen x hx
    · simp only [dedupPage, if_neg hm]
      rcases List.mem_cons.1 hx with rfl | hx
      · rw [dedupPage_seen_iff]
        exact Or.inl (List.mem_cons_self _ _)
      · exact ih (h.listing_id :: seen) x hx

theorem dedupPage_find (L : List SoldListing) (seen : List String) :
    ∀ x ∈ (dedupPage L seen).1,
      L.find? (fun y => y.listing_id == x.listing_id) = some x := by
  induction L generalizing seen with
  | nil => simp [dedupPage]
  | cons h t ih =>
    intro x hx
    by_cases hm : h.listing_id ∈ seen
    · simp only [dedupPage, if_pos hm] at hx
      have hne : h.listing_id ≠ x.listing_id := by
        intro he
        exact dedupPage_new_not_seen t seen x hx (he ▸ hm)
      rw [List.find?_cons_of_neg _ (by simpa using hne)]
      exact ih seen x hx
    · simp only [dedupPage, if_neg hm] at hx
      rcases List.mem_cons.1 hx with rfl | hx
      · rw [List.find?_cons_of_pos _ (by simp)]
      · have hne : h.listing_id ≠ x.listing_id := by
          intro he
          exact dedupPage_new_not_seen t (h.listing_id :: seen) x hx
            (he ▸ List.mem_cons_self _ _)
        rw [List.find?_cons_of_neg _ (by simpa using hne)]
        exact ih (h.listing_id :: seen) x hx

theorem dedupPage_mem (L : List SoldListing) (seen : List String) :
    ∀ x ∈ (dedupPage L seen).1, x ∈ L := by
  induction L generalizing seen with
  | nil => simp [dedupPage]
  | cons h t ih =>
    intro x hx
    by_cases hm : h.listing_id ∈ seen
    · simp only [dedupPage, if_pos hm] at hx
      exact List.mem_cons_of_mem _ (ih seen x hx)
    · simp only [dedupPage, if_neg hm] at hx
      rcases List.mem_cons.1 hx with rfl | hx
      · exact List.mem_cons_self _ _
      · exact List.mem_cons_of_mem _ (ih _ x hx)

theorem scrapeLoopTrace_fst (env : Nat → PageResult) (maxL : Option Nat) :
    ∀ (ps : List Nat) (all : List SoldListing) (seen : List String) (pages : Nat)
      (enc : List SoldListing),
      (scrapeLoopTrace env maxL ps all seen pages enc).1 =
        scrapeLoop env maxL ps all seen pages := by
  intro ps
  induction ps with
  | nil => intro all seen pages enc; rfl
  | cons p rest ih =>
    intro all seen pages enc
    simp only [scrapeLoopTrace, scrapeLoop]
    cases env p with
    | challenge => rfl
    | error => exact ih all seen pages enc
    | page items hasNext parseTime =>
      by_cases hc : capHit maxL (all ++ (dedupPage (parseListings items parseTime) seen).1).length
      · simp only [if_pos hc]
      · simp only [if_neg hc]
        by_cases hn : hasNext
        · simp only [if_pos hn]
          exact ih _ _ _ _
        · simp only [if_neg hn]

theorem scrapeLoopTrace_inv (env : Nat → PageResult) (maxL : Option Nat) :
    ∀ (ps : List Nat) (all : List SoldListing) (seen : List String) (pages : Nat)
      (enc : List SoldListing),
      (all.map SoldListing.listing_id).Nodup →
      (∀ x ∈ all, enc.find? (fun y => y.listing_id == x.listing_id) = some x) →
      (∀ x ∈ all, x.listing_id ∈ seen) →
      (∀ y ∈ enc, y.listing_id ∈ seen) →
      (((scrapeLoopTrace env maxL ps all seen pages enc).1.1.map
          SoldListing.listing_id).Nodup ∧
        ∀ x ∈ (scrapeLoopTrace env maxL ps all seen pages enc).1.1,
          (scrapeLoopTrace env maxL ps all seen pages enc).2.find?
              (fun y => y.listing_id == x.listing_id) = some x) := by
  intro ps
  induction ps with
  | nil => intro all seen pages enc h1 h2 _ _; exact ⟨h1, h2⟩
  | cons p rest ih =>
    intro all seen pages enc h1 h2 h3 h4
    simp only [scrapeLoopTrace]
    cases env p with
    | challenge => exact ⟨h1, h2⟩
    | error => exact ih all seen pages enc h1 h2 h3 h4
    | page items hasNext parseTime =>
      -- names for the page step
      set stamped := parseListings items parseTime with hstamped
      set r := dedupPage stamped seen with hr
      -- invariant for the extended state
      have hnodup2 : ((all ++ r.1).map SoldListing.listing_id).Nodup := by
        rw [List.map_append, List.nodup_append]
        refine ⟨h1, dedupPage_nodup stamped seen, ?_⟩
        intro a ha hb
        obtain ⟨x, hx, rfl⟩ := List.mem_map.1 ha
        obtain ⟨y, hy, hxy⟩ := List.mem_map.1 hb
        exact dedupPage_new_not_seen stamped seen y hy (hxy ▸ h3 x hx)
      have hfind2 : ∀ x ∈ all ++ r.1,
          (enc ++ stamped).find? (fun y => y.listing_id == x.listing_id) = some x := by
        intro x hx
        rcases List.mem_append.1 hx with hx | hx
        · rw [List.find?_append, h2 x hx]
          rfl
        · have hnone : enc.find? (fun y => y.listing_id == x.listing_id) = none := by
            rw [List.find?_eq_none]
            intro y hy hbeq
            have : y.listing_id = x.listing_id := by simpa using hbeq
            exact dedupPage_new_not_seen stamped seen x hx (this ▸ h4 y hy)
          rw [List.find?_append, hnone, Option.none_or]
          exact dedupPage_find stamped seen x hx
      have hseen2 : ∀ x ∈ all ++ r.1, x.listing_id ∈ r.2 := by
        intro x hx
        rcases List.mem_append.1 hx with hx | hx
        · rw [dedupPage_seen_iff]
          exact Or.inl (h3 x hx)
        · rw [dedupPage_seen_iff]
          exact Or.inr (List.mem_map_of_mem _ hx)
      have henc2 : ∀ y ∈ enc ++ stamped, y.listing_id ∈ r.2 := by
        intro y hy
        rcases List.mem_append.1 hy with hy | hy
        · rw [dedupPage_seen_iff]
          exact Or.inl (h4 y hy)
        · exact dedupPage_mem_seen stamped seen y hy
      by_cases hc : capHit maxL (all ++ r.1).length
      · simp only [if_pos hc]
        constructor
        · have hsub : List.Sublist
              (((all ++ r.1).take (maxL.getD 0)).map SoldListing.listing_id)
              ((all ++ r.1).map SoldListing.listing_id) :=
            List.Sublist.map _ (List.take_sublist _ _)
          exact hnodup2.sublist hsub
        · intro x hx
          exact hfind2 x (List.take_subset _ _ hx)
      · simp only [if_neg hc]
        by_cases hn : hasNext
        · simp only [if_pos hn]
          exact ih _ _ _ _ hnodup2 hfind2 hseen2 henc2
        · simp only [if_neg hn]
          exact ⟨hnodup2, hfind2⟩

theorem fetchGo_ok (attempts : List AttemptOutcome) :
    ∀ (acc : Option FetchError) (html : String),
      fetchGo attempts acc = .ok html →
      ∃ url, AttemptOutcome.success html url ∈ attempts ∧
        isChallengePage html url = false := by
  induction attempts with
  | nil => intro acc html h; cases acc <;> simp [fetchGo] at h
  | cons a rest ih =>
    intro acc html h
    cases a with
    | rateLimited =>
      obtain ⟨url, hmem, hc⟩ := ih _ _ h
      exact ⟨url, List.mem_cons_of_mem _ hmem, hc⟩
    | httpError tag =>
      obtain ⟨url, hmem, hc⟩ := ih _ _ h
      exact ⟨url, List.mem_cons_of_mem _ hmem, hc⟩
    | success hh uu =>
      simp only [fetchGo] at h
      by_cases hc : isChallengePage hh uu
      · rw [if_pos hc] at h
        obtain ⟨url, hmem, hcc⟩ := ih _ _ h
        exact ⟨url, List.mem_cons_of_mem _ hmem, hcc⟩
      · rw [if_neg hc] at h
        cases h
        exact ⟨uu, List.mem_cons_self _ _, by simpa using hc⟩

/-- C1: whenever fetch_page returns a page body to its caller rather than
raising, that body together with its final URL does not satisfy the
block/challenge classifier _is_challenge_page: a classified block page is
never returned as valid content. -/
theorem fetch_page_never_returns_challenge_body
    (attempts : List AttemptOutcome) (html : String)
    (h : fetchPage attempts = .ok html) :
    ∃ url, AttemptOutcome.success html url ∈ attempts ∧
      isChallengePage html url = false :=
  fetchGo_ok attempts none html h

theorem fetch_page_never_returns_challenge_body_witness :
    fetchPage [AttemptOutcome.success "<ul class=\"srp-results\"></ul>"
        "https://www.ebay.com/sch/i.html"] =
      .ok "<ul class=\"srp-results\"></ul>" ∧
    ∃ url,
      AttemptOutcome.success "<ul class=\"srp-results\"></ul>" url ∈
        [AttemptOutcome.success "<ul class=\"srp-results\"></ul>"
          "https://www.ebay.com/sch/i.html"] ∧
      isChallengePage "<ul class=\"srp-results\"></ul>" url = false :=
  ⟨rfl, fetch_page_never_returns_challenge_body _ _ rfl⟩

theorem fetchGo_error (attempts : List AttemptOutcome) :
    ∀ (acc : Option FetchError) (e : FetchError),
      fetchGo attempts acc = .error e →
      e = (lastRecorded attempts).getD (acc.getD .challenge) := by
  induction attempts with
  | nil =>
    intro acc e h
    cases acc <;> simp only [fetchGo] at h <;> cases h <;> rfl
  | cons a rest ih =>
    intro acc e h
    cases a with
    | rateLimited =>
      have := ih _ _ h
      simp only [lastRecorded, recordOf] at *
      cases hlr : lastRecorded rest <;> simp [hlr] at this ⊢ <;> exact this
    | httpError tag =>
      have := ih _ _ h
      simp only [lastRecorded, recordOf] at *
      cases hlr : lastRecorded rest <;> simp [hlr] at this ⊢ <;> exact this
    | success hh uu =>
      simp only [fetchGo] at h
      by_cases hc : isChallengePage hh uu
      · rw [if_pos hc] at h
        have := ih _ _ h
        simp only [lastRecorded, recordOf, if_pos hc] at *
        cases hlr : lastRecorded rest <;> simp [hlr] at this ⊢ <;> exact this
      · rw [if_neg hc] at h
        cases h

/-- C3 counterexample: an execution whose attempts record first a
block-detection (challenge) error and then a generic transport error
raises the transport error, not the block error, although both occurred:
the challenge body "x" at the challenge URL is classified as a block page,
yet the error finally raised is the transport error of the last attempt. -/
theorem fetch_page_block_precedence_cex :
    isChallengePage "x" "https://www.ebay.com/splashui/challenge" = true ∧
    fetchPage [AttemptOutcome.success "x" "https://www.ebay.com/splashui/challenge",
        AttemptOutcome.httpError 0] =
      .error (FetchError.transport 0) :=
  ⟨rfl, rfl⟩

/-- C3 amended: when fetch_page exhausts all attempts, the error raised is
the last error recorded by any attempt (a challenge-classified body records
the block error, an HTTP error records the transport error, a 429 response
records nothing), with a final ChallengePageError when no attempt recorded
an error; the block error takes precedence only when it is the last one
recorded, not whenever both kinds occurred. -/
theorem fetch_page_raises_last_recorded_error
    (attempts : List AttemptOutcome) (e : FetchError)
    (h : fetchPage attempts = .error e) :
    e = (lastRecorded attempts).getD FetchError.challenge :=
  fetchGo_error attempts none e h

theorem fetch_page_raises_last_recorded_error_witness :
    fetchPage [AttemptOutcome.success "x" "https://www.ebay.com/splashui/challenge",
        AttemptOutcome.httpError 0] =
      .error (FetchError.transport 0) ∧
    FetchError.transport 0 =
      (lastRecorded [AttemptOutcome.success "x" "https://www.ebay.com/splashui/challenge",
          AttemptOutcome.httpError 0]).getD FetchError.challenge :=
  ⟨rfl, fetch_page_raises_last_recorded_error _ _ rfl⟩

/-- C8: starting from a full bucket, under nonnegative configured rate and
nonnegative elapsed monotonic durations, the token count of the rate
limiter stays within [0, burstSize] across every sequence of acquire-loop
iterations: each refill adds elapsed times rate capped at the burst size,
and each acquisition consumes exactly one token only when at least one is
available. -/
theorem rate_limiter_token_bounds (burst rate : ℚ) (hb : 0 ≤ burst)
    (hr : 0 ≤ rate) (es : List ℚ) (he : ∀ e ∈ es, 0 ≤ e)
    (t0 : ℚ) (h0 : 0 ≤ t0) (h1 : t0 ≤ burst) :
    0 ≤ runSteps burst rate es t0 ∧ runSteps burst rate es t0 ≤ burst := by
  induction es generalizing t0 with
  | nil => exact ⟨h0, h1⟩
  | cons e es ih =>
    have he0 : 0 ≤ e := he e (List.mem_cons_self _ _)
    have hrefill0 : 0 ≤ refillTokens burst rate t0 e :=
      le_min hb (add_nonneg h0 (mul_nonneg he0 hr))
    have hrefill1 : refillTokens burst rate t0 e ≤ burst := min_le_left _ _
    have hacq : acquireStep burst rate t0 e =
        if 1 ≤ refillTokens burst rate t0 e then refillTokens burst rate t0 e - 1
        else refillTokens burst rate t0 e := rfl
    have hstep0 : 0 ≤ acquireStep burst rate t0 e := by
      rw [hacq]
      split
      · linarith
      · exact hrefill0
    have hstep1 : acquireStep burst rate t0 e ≤ burst := by
      rw [hacq]
      split
      · linarith
      · exact hrefill1
    exact ih (fun x hx => he x (List.mem_cons_of_mem _ hx)) _ hstep0 hstep1

theorem rate_limiter_token_bounds_witness :
    0 ≤ runSteps 1 (1 / 10) [5, 20, 1] 1 ∧ runSteps 1 (1 / 10) [5, 20, 1] 1 ≤ 1 :=
  rate_limiter_token_bounds 1 (1 / 10) (by norm_num) (by norm_num)
    [5, 20, 1] (by norm_num) 1 (by norm_num) (by norm_num)

/-- C10: a max_listings of 0 is falsy in the Python cap condition, so the
cap check is skipped entirely and the scrape behaves exactly as with no
limit at all, proceeding through pages up to max_pages. -/
theorem max_listings_zero_means_no_limit (q : String) (env : Nat → PageResult)
    (maxPages startTime : Nat) :
    scrape q env maxPages (some 0) startTime =
      scrape q env maxPages none startTime := by
  have hloop : ∀ (ps : List Nat) (all : List SoldListing) (seen : List String)
      (pages : Nat),
      scrapeLoop env (some 0) ps all seen pages =
        scrapeLoop env none ps all seen pages := by
    intro ps
    induction ps with
    | nil => intro all seen pages; rfl
    | cons p rest ih =>
      intro all seen pages
      simp only [scrapeLoop]
      cases env p with
      | challenge => rfl
      | error => exact ih all seen pages
      | page items hasNext parseTime =>
        have h0 : ∀ n, capHit (some 0) n = false := fun n => rfl
        have h1 : ∀ n, capHit (none : Option Nat) n = false := fun n => rfl
        simp only [h0, h1, Bool.false_eq_true, if_false]
        by_cases hn : hasNext
        · simp only [if_pos hn]
          exact ih _ _ _
        · simp only [if_neg hn]
  simp only [scrape, hloop]

theorem parseCardItem_no_field (frag : ItemFragment) (t : Nat)
    (h : frag.listingId.getD "" = "" ∨ frag.linkHref.getD "" = "" ∨
      soldTextOf frag.soldTexts = none ∨
      parsePrice (frag.priceText.getD "") = none) :
    parseCardItem frag t = none := by
  unfold parseCardItem
  rcases h with h | h | h | h
  · rw [if_pos h]
  · split
    · rfl
    · split
      · rfl
      · split <;> rfl
  · split
    · rfl
    · split
      · rfl
      · split
        · rfl
        · by_cases hu : frag.linkHref.getD "" = ""
          · rw [if_pos hu]
          · rw [if_neg hu, h]
  · split
    · rfl
    · split
      · rfl
      · split
        · rfl
        · by_cases hu : frag.linkHref.getD "" = ""
          · rw [if_pos hu]
          · rw [if_neg hu]
            split
            · rfl
            · rw [h]

/-- C6: an item fragment lacking a listing id, a parsable price, a
non-empty URL, or a textual marker beginning with "Sold" never produces a
record (it is skipped, not emitted with defaults), and skipping it leaves
the parsing of the rest of the page unchanged. -/
theorem parse_mandatory_field_rejection :
    (∀ (frag : ItemFragment) (t : Nat),
      frag.listingId.getD "" = "" ∨ frag.linkHref.getD "" = "" ∨
        soldTextOf frag.soldTexts = none ∨
        parsePrice (frag.priceText.getD "") = none →
      parseCardItem frag t = none) ∧
    (∀ (frag : ItemFragment) (rest : List ItemFragment) (t : Nat),
      parseCardItem frag t = none →
      parseListings (frag :: rest) t = parseListings rest t) :=
  ⟨parseCardItem_no_field,
   fun _ rest t h => by simp [parseListings, List.filterMap_cons, h]⟩

theorem parse_mandatory_field_rejection_witness :
    parseCardItem noIdFrag 3 = none ∧
    parseListings [noIdFrag] 3 = parseListings [] 3 :=
  ⟨parse_mandatory_field_rejection.1 noIdFrag 3 (Or.inl rfl),
   parse_mandatory_field_rejection.2 noIdFrag [] 3
     (parse_mandatory_field_rejection.1 noIdFrag 3 (Or.inl rfl))⟩

/-- C7: the price parser maps "$1,234.56" to 1234.56; the shipping parser
maps "Free delivery" to 0.0 and "+$5.15 delivery" to 5.15; and an item
whose price text has no parsable decimal number is dropped, never assigned
a zero price. -/
theorem price_parsing_policy :
    parsePrice "$1,234.56" = some (1234.56 : ℚ) ∧
    parseShipping "Free delivery" = some 0 ∧
    parseShipping "+$5.15 delivery" = some (5.15 : ℚ) ∧
    ∀ (frag : ItemFragment) (t : Nat),
      parsePrice (frag.priceText.getD "") = none →
      parseCardItem frag t = none := by
  refine ⟨?_, by decide, ?_, ?_⟩
  · simp only [parsePrice]
    rw [if_neg (show ¬("$1,234.56" = "") from by decide)]
    rw [show "$1,234.56".data.filter digitOrDot = "1234.56".data from by decide]
    simp only [pyFloat]
    rw [if_pos (by decide)]
    rw [show digitsVal ("1234.56".data.filter Char.isDigit) = 123456 from by decide,
      show (("1234.56".data.dropWhile (fun c => c != '.')).drop 1).length = 2 from by
        decide]
    norm_num
  · simp only [parseShipping]
    rw [if_neg (show ¬("+$5.15 delivery" = "") from by decide)]
    rw [if_neg (show
      ¬(containsSeq "free".data (lowerData "+$5.15 delivery") = true) from by decide)]
    rw [show firstNumRun "+$5.15 delivery".data = some "5.15".data from by decide]
    simp only [pyFloat]
    rw [if_pos (by decide)]
    rw [show digitsVal ("5.15".data.filter Char.isDigit) = 515 from by decide,
      show (("5.15".data.dropWhile (fun c => c != '.')).drop 1).length = 2 from by
        decide]
    norm_num
  · intro frag t h
    exact parseCardItem_no_field frag t (Or.inr (Or.inr (Or.inr h)))

theorem price_parsing_policy_witness :
    parsePrice (noPriceFrag.priceText.getD "") = none ∧
    parseCardItem noPriceFrag 3 = none :=
  ⟨by decide, price_parsing_policy.2.2.2 noPriceFrag 3 (by decide)⟩

/-- C2: a ChallengePageError surfacing from the fetch pipeline stops the
page loop at that page without raising, returning exactly the listings and
page count accumulated before the block; in the scenario with query
"one piece tcg OP01", max_pages = 5 and every fetch blocked, the result has
pages_scraped = 0 < 5 and no listings. -/
theorem scrape_blocked_partial_result :
    (∀ (env : Nat → PageResult) (maxL : Option Nat) (p : Nat) (rest : List Nat)
        (all : List SoldListing) (seen : List String) (pages : Nat),
      env p = PageResult.challenge →
      scrapeLoop env maxL (p :: rest) all seen pages = (all, pages)) ∧
    ∀ startTime : Nat,
      (scrape "one piece tcg OP01" blockedEnv 5 none startTime).pages_scraped = 0 ∧
      (scrape "one piece tcg OP01" blockedEnv 5 none startTime).pages_scraped < 5 ∧
      (scrape "one piece tcg OP01" blockedEnv 5 none startTime).listings = [] := by
  constructor
  · intro env maxL p rest all seen pages h
    simp only [scrapeLoop, h]
  · intro startTime
    exact ⟨rfl, Nat.zero_lt_succ 4, rfl⟩

theorem scrape_blocked_partial_result_witness :
    scrapeLoop blockedEnv none [1, 2, 3, 4, 5] [] [] 0 = ([], 0) :=
  scrape_blocked_partial_result.1 blockedEnv none 1 [2, 3, 4, 5] [] [] 0 rfl

theorem scrapeLoop_cap_stop (env : Nat → PageResult) (m : Nat) (p : Nat)
    (rest : List Nat) (all : List SoldListing) (seen : List String)
    (pages : Nat) (items : List ItemFragment) (hasNext : Bool) (pt : Nat)
    (hp : env p = PageResult.page items hasNext pt) (hm : m ≠ 0)
    (hlen : m ≤ (all ++ (dedupPage (parseListings items pt) seen).1).length) :
    scrapeLoop env (some m) (p :: rest) all seen pages =
      ((all ++ (dedupPage (parseListings items pt) seen).1).take m, pages + 1) := by
  have hcap : capHit (some m)
      ((all ++ (dedupPage (parseListings items pt) seen).1).length) = true := by
    simp only [capHit, Bool.and_eq_true, decide_eq_true_eq]
    exact ⟨hm, hlen⟩
  simp only [scrapeLoop, hp, hcap]
  rfl

theorem scrapeLoop_page_continue (env : Nat → PageResult) (maxL : Option Nat)
    (p : Nat) (rest : List Nat) (all : List SoldListing) (seen : List String)
    (pages : Nat) (items : List ItemFragment) (pt : Nat)
    (hp : env p = PageResult.page items true pt)
    (hcap : capHit maxL
      ((all ++ (dedupPage (parseListings items pt) seen).1).length) = false) :
    scrapeLoop env maxL (p :: rest) all seen pages =
      scrapeLoop env maxL rest (all ++ (dedupPage (parseListings items pt) seen).1)
        (dedupPage (parseListings items pt) seen).2 (pages + 1) := by
  simp only [scrapeLoop, hp, hcap]
  rfl

/-- C5: when the accumulated count reaches a nonzero max_listings on some
page, the loop truncates to exactly the cap and stops at that page; in the
scenario max_listings = 50 over pages of 30 unique items each, the result
has exactly 50 records in discovery order (a prefix of the per-page
accumulation), 2 pages are scraped, and any environment agreeing on the
first two pages yields the same result, so no further page is fetched after
the cap is reached. -/
theorem scrape_cap_truncation :
    (∀ (env : Nat → PageResult) (m : Nat) (items : List ItemFragment)
        (hasNext : Bool) (pt p : Nat) (rest : List Nat)
        (all : List SoldListing) (seen : List String) (pages : Nat),
      env p = PageResult.page items hasNext pt → m ≠ 0 →
      m ≤ (all ++ (dedupPage (parseListings items pt) seen).1).length →
      scrapeLoop env (some m) (p :: rest) all seen pages =
        ((all ++ (dedupPage (parseListings items pt) seen).1).take m, pages + 1) ∧
      ((all ++ (dedupPage (parseListings items pt) seen).1).take m).length = m) ∧
    ((scrape "one piece tcg OP01" capEnv 5 (some 50) 0).listings.length = 50 ∧
     (scrape "one piece tcg OP01" capEnv 5 (some 50) 0).pages_scraped = 2 ∧
     (scrape "one piece tcg OP01" capEnv 5 (some 50) 0).listings =
       (parseListings (frag30 "a") 0 ++ parseListings (frag30 "b") 0).take 50 ∧
     ∀ env2 : Nat → PageResult, env2 1 = capEnv 1 → env2 2 = capEnv 2 →
       scrape "one piece tcg OP01" env2 5 (some 50) 0 =
         scrape "one piece tcg OP01" capEnv 5 (some 50) 0) := by
  constructor
  · intro env m items hasNext pt p rest all seen pages hp hm hlen
    refine ⟨scrapeLoop_cap_stop env m p rest all seen pages items hasNext pt hp hm hlen, ?_⟩
    rw [List.length_take]
    exact Nat.min_eq_left hlen
  · refine ⟨by decide, by decide, rfl, ?_⟩
    intro env2 h1 h2
    have hl : scrapeLoop env2 (some 50) (List.range' 1 5) [] [] 0 =
        scrapeLoop capEnv (some 50) (List.range' 1 5) [] [] 0 := by
      rw [show List.range' 1 5 = [1, 2, 3, 4, 5] from rfl]
      rw [scrapeLoop_page_continue env2 (some 50) 1 [2, 3, 4, 5] [] [] 0
        (frag30 "a") 0 (h1.trans rfl) (by decide)]
      rw [scrapeLoop_cap_stop env2 50 2 [3, 4, 5]
        ([] ++ (dedupPage (parseListings (frag30 "a") 0) []).1)
        (dedupPage (parseListings (frag30 "a") 0) []).2 1
        (frag30 "b") true 0 (h2.trans rfl) (by decide) (by decide)]
      rw [scrapeLoop_page_continue capEnv (some 50) 1 [2, 3, 4, 5] [] [] 0
        (frag30 "a") 0 rfl (by decide)]
      rw [scrapeLoop_cap_stop capEnv 50 2 [3, 4, 5]
        ([] ++ (dedupPage (parseListings (frag30 "a") 0) []).1)
        (dedupPage (parseListings (frag30 "a") 0) []).2 1
        (frag30 "b") true 0 rfl (by decide) (by decide)]
    simp only [scrape, hl]

theorem scrape_cap_truncation_witness :
    (scrapeLoop capEnv (some 50) [2, 3, 4, 5]
        ([] ++ (dedupPage (parseListings (frag30 "a") 0) []).1)
        (dedupPage (parseListings (frag30 "a") 0) []).2 1 =
      ((([] ++ (dedupPage (parseListings (frag30 "a") 0) []).1) ++
          (dedupPage (parseListings (frag30 "b") 0)
            (dedupPage (parseListings (frag30 "a") 0) []).2).1).take 50, 2) ∧
      ((([] ++ (dedupPage (parseListings (frag30 "a") 0) []).1) ++
          (dedupPage (parseListings (frag30 "b") 0)
            (dedupPage (parseListings (frag30 "a") 0) []).2).1).take 50).length = 50) ∧
    scrape "one piece tcg OP01" capEnv 5 (some 50) 0 =
      scrape "one piece tcg OP01" capEnv 5 (some 50) 0 :=
  ⟨scrape_cap_truncation.1 capEnv 50 (frag30 "b") true 0 2 [3, 4, 5]
      ([] ++ (dedupPage (parseListings (frag30 "a") 0) []).1)
      (dedupPage (parseListings (frag30 "a") 0) []).2 1 rfl (by decide) (by decide),
   scrape_cap_truncation.2.2.2.2 capEnv rfl rfl⟩

/-- C9 counterexample: in a run over two pages parsed at times 10 and 20
with run start time 0, the two records carry scrapedAt 10 and 20: the
record timestamps are neither equal to one another nor to the
ScrapeResult's own scraped_at, so scrapedAt is not set once per run. -/
theorem scraped_at_per_run_cex :
    (scrape "q" tsEnv 2 none 0).listings.map SoldListing.scraped_at = [10, 20] ∧
    (scrape "q" tsEnv 2 none 0).scraped_at = 0 ∧
    ¬ ∀ l ∈ (scrape "q" tsEnv 2 none 0).listings,
        l.scraped_at = (scrape "q" tsEnv 2 none 0).scraped_at := by
  refine ⟨by decide, rfl, by decide⟩

theorem parseCardItem_scraped_at (it : ItemFragment) (now : Nat) (x : SoldListing)
    (h : parseCardItem it now = some x) : x.scraped_at = now := by
  unfold parseCardItem at h
  split at h
  · cases h
  · split at h
    · cases h
    · split at h
      · cases h
      · split at h
        · cases h
        · split at h
          · cases h
          · split at h
            · cases h
            · cases h
              rfl

theorem parseListings_scraped_at (items : List ItemFragment) (now : Nat) :
    ∀ x ∈ parseListings items now, x.scraped_at = now := by
  intro x hx
  obtain ⟨it, _, hit⟩ := List.mem_filterMap.1 hx
  exact parseCardItem_scraped_at it now x hit

theorem scrapeLoop_mem_page (env : Nat → PageResult) (maxL : Option Nat) :
    ∀ (ps : List Nat) (all : List SoldListing) (seen : List String) (pages : Nat)
      (x : SoldListing), x ∈ (scrapeLoop env maxL ps all seen pages).1 →
      x ∈ all ∨ ∃ p ∈ ps, ∃ items hasNext parseTime,
        env p = PageResult.page items hasNext parseTime ∧
          x.scraped_at = parseTime := by
  intro ps
  induction ps with
  | nil => intro all seen pages x hx; exact Or.inl hx
  | cons p rest ih =>
    intro all seen pages x hx
    simp only [scrapeLoop] at hx
    revert hx
    cases hp : env p with
    | challenge =>
      intro hx
      exact Or.inl hx
    | error =>
      intro hx
      rcases ih all seen pages x hx with h | ⟨p2, hp2, hrest⟩
      · exact Or.inl h
      · exact Or.inr ⟨p2, List.mem_cons_of_mem _ hp2, hrest⟩
    | page items hasNext parseTime =>
      intro hx
      simp only at hx
      have hstamp : ∀ y ∈ all ++ (dedupPage (parseListings items parseTime) seen).1,
          y ∈ all ∨ y.scraped_at = parseTime := by
        intro y hy
        rcases List.mem_append.1 hy with hy | hy
        · exact Or.inl hy
        · exact Or.inr (parseListings_scraped_at items parseTime y
            (dedupPage_mem _ _ y hy))
      by_cases hc : capHit maxL
          ((all ++ (dedupPage (parseListings items parseTime) seen).1).length)
      · rw [if_pos hc] at hx
        have hx2 := List.take_subset _ _ hx
        rcases hstamp x hx2 with h | h
        · exact Or.inl h
        · exact Or.inr ⟨p, List.mem_cons_self _ _, items, hasNext, parseTime, hp, h⟩
      · rw [if_neg hc] at hx
        by_cases hn : hasNext
        · rw [if_pos hn] at hx
          rcases ih _ _ _ x hx with h | ⟨p2, hp2, hrest⟩
          · rcases hstamp x h with h | h
            · exact Or.inl h
            · exact Or.inr ⟨p, List.mem_cons_self _ _, items, hasNext, parseTime, hp, h⟩
          · exact Or.inr ⟨p2, List.mem_cons_of_mem _ hp2, hrest⟩
        · rw [if_neg hn] at hx
          rcases hstamp x hx with h | h
          · exact Or.inl h
          · exact Or.inr ⟨p, List.mem_cons_self _ _, items, hasNext, parseTime, hp, h⟩

/-- C9 amended: the scrapedAt of every record equals the utcnow captured by
parse_listings for the page that produced the record: it is set once per
page at parse time (shared by all records of that page), not once per run,
and it need not equal the ScrapeResult's scraped_at, which is captured at
the start of the run. -/
theorem scraped_at_is_page_parse_time (env : Nat → PageResult) (q : String)
    (maxPages : Nat) (maxL : Option Nat) (startTime : Nat) :
    ∀ l ∈ (scrape q env maxPages maxL startTime).listings,
      ∃ p ∈ List.range' 1 maxPages, ∃ items hasNext parseTime,
        env p = PageResult.page items hasNext parseTime ∧
          l.scraped_at = parseTime := by
  intro l hl
  rcases scrapeLoop_mem_page env maxL (List.range' 1 maxPages) [] [] 0 l hl with
    h | h
  · cases h
  · exact h

theorem scraped_at_is_page_parse_time_witness :
    (scrape "q" tsEnv 2 none 0).listings.length = 2 ∧
    ∃ p ∈ List.range' 1 2, ∃ items hasNext parseTime,
      tsEnv p = PageResult.page items hasNext parseTime ∧
        ((scrape "q" tsEnv 2 none 0).listings.getD 0 fallbackRec).scraped_at =
          parseTime := by
  refine ⟨by decide, ?_⟩
  have hmem : (scrape "q" tsEnv 2 none 0).listings.getD 0 fallbackRec ∈
      (scrape "q" tsEnv 2 none 0).listings := by
    obtain ⟨l, rest, hshape⟩ :
        ∃ l rest, (scrape "q" tsEnv 2 none 0).listings = l :: rest := ⟨_, _, rfl⟩
    rw [hshape]
    exact List.mem_cons_self _ _
  exact scraped_at_is_page_parse_time tsEnv "q" 2 none 0 _ hmem

/-- C4: in every scrape run each listing_id occurs at most once in the
resulting listings, and every retained record is the first record bearing
its listing_id in the stream of records encountered across fetched pages,
in page order and document order within each page. -/
theorem scrape_dedup_first_occurrence (env : Nat → PageResult) (q : String)
    (maxPages : Nat) (maxL : Option Nat) (startTime : Nat) :
    ((scrape q env maxPages maxL startTime).listings.map
        SoldListing.listing_id).Nodup ∧
    ∀ l ∈ (scrape q env maxPages maxL startTime).listings,
      (scrapeTrace env maxPages maxL).find?
          (fun y => y.listing_id == l.listing_id) = some l := by
  have hinv := scrapeLoopTrace_inv env maxL (List.range' 1 maxPages) [] [] 0 []
    (by simp) (by simp) (by simp) (by simp)
  have hfst : (scrapeLoopTrace env maxL (List.range' 1 maxPages) [] [] 0 []).1.1 =
      (scrapeLoop env maxL (List.range' 1 maxPages) [] [] 0).1 := by
    rw [scrapeLoopTrace_fst]
  constructor
  · have h1 := hinv.1
    rw [hfst] at h1
    exact h1
  · intro l hl
    have hl2 : l ∈ (scrapeLoopTrace env maxL (List.range' 1 maxPages) [] [] 0 []).1.1 := by
      rw [hfst]
      exact hl
    exact hinv.2 l hl2

theorem scrape_dedup_first_occurrence_witness :
    ((scrape "q" dupEnv 2 none 0).listings.map SoldListing.listing_id).Nodup ∧
    (scrapeTrace dupEnv 2 none).find?
        (fun y => y.listing_id ==
          ((scrape "q" dupEnv 2 none 0).listings.getD 0 fallbackRec).listing_id) =
      some ((scrape "q" dupEnv 2 none 0).listings.getD 0 fallbackRec) := by
  refine ⟨(scrape_dedup_first_occurrence dupEnv "q" 2 none 0).1, ?_⟩
  have hmem : (scrape "q" dupEnv 2 none 0).listings.getD 0 fallbackRec ∈
      (scrape "q" dupEnv 2 none 0).listings := by
    obtain ⟨l, rest, hshape⟩ :
        ∃ l rest, (scrape "q" dupEnv 2 none 0).listings = l :: rest := ⟨_, _, rfl⟩
    rw [hshape]
    exact List.mem_cons_self _ _
  exact (scrape_dedup_first_occurrence dupEnv "q" 2 none 0).2 _ hmem
